import Mathlib

/-
Verification of the foolscrate synchronization engine
(src/foolscrate/foolscrate.py) against its specification.

The development shallowly embeds the reconciliation engine
(Repository.sync), the tracked-repository registry (Repository.track,
Repository.untrack, SyncAll.cleanup_tracked), the fleet sweeper
(SyncAll.sync_all_tracked) and the crontab installer
(Repository.enable_foolscrate_cronjob).  External collaborators (git,
the file lock, the config store) are modelled at their interface: every
git primitive either returns or raises, and an environment value records
which outcome each primitive has in a given run.
-/

namespace Foolscrate

/-- The git primitives issued by Repository.sync, in source order:
fetch --all; add -A; diff --staged; commit -m "Automatic foolscrate
commit"; merge --no-edit foolscrate/master; merge --abort; update-ref
(via _align_client_ref_to_master); push foolscrate master client_id. -/
inductive GitCmd
  | fetchAll
  | stageAll
  | diffStaged
  | commitAuto
  | mergeNoEdit
  | abortMerge
  | updateRef
  | push
deriving DecidableEq

/-- Observable events of one sync run: a git primitive being issued, or a
sleep(n seconds) backoff (sync sleeps _SLEEP_BETWEEN_MERGE_ATTEMPTS_SECONDS
= 1 between attempts). -/
inductive Event
  | git (c : GitCmd)
  | sleepSecs (n : Nat)
deriving DecidableEq

/-- Abstract working-copy state.  `clean v` is an ordinary working tree
whose file contents are summarized by `v`; `midMerge saved` is a tree with
an in-progress (failed) merge, where `saved` summarizes the contents that
`git merge --abort` would restore. -/
inductive Worktree
  | clean (v : Nat)
  | midMerge (saved : Nat)
deriving DecidableEq

/-- The working-copy summary an attempt continues from. -/
def wtVal : Worktree → Nat
  | .clean v => v
  | .midMerge saved => saved

/-- Outcomes of the external git primitives during one loop iteration of
Repository.sync.  A `false` field means the corresponding subprocess call
raises CalledProcessError.  `anyChange` is whether `git diff --staged`
prints a non-empty diff; `mergedVal` summarizes the working tree produced
by a successful merge. -/
structure AttemptEnv where
  fetchOk : Bool
  stageOk : Bool
  diffOk : Bool
  anyChange : Bool
  commitOk : Bool
  mergeOk : Bool
  mergedVal : Nat
  abortOk : Bool
  updateRefOk : Bool
  pushOk : Bool
deriving DecidableEq

/-- How one iteration of the attempt loop ends: `break` after a successful
push, `continue` after a caught merge or push failure, or an exception
escaping the loop from a primitive the code does not catch. -/
inductive AttemptRes
  | success
  | retry
  | uncaught (c : GitCmd)
deriving DecidableEq

/-- One iteration of the `for attempt in range(0, 5)` body of
Repository.sync (foolscrate.py lines 138-163), given the primitive
outcomes `a` and the working-copy summary `v` at the start of the
iteration.  Returns the events issued, how the iteration ends, and the
working copy it leaves behind.  Only the merge call (caught by
`except Exception`) and the push call (caught by
`except CalledProcessError`) have their failures contained; a failure of
fetch, add, diff, commit, merge --abort or update-ref propagates. -/
def runAttempt (a : AttemptEnv) (v : Nat) : List Event × AttemptRes × Worktree :=
  if !a.fetchOk then ([.git .fetchAll], .uncaught .fetchAll, .clean v)
  else if !a.stageOk then
    ([.git .fetchAll, .git .stageAll], .uncaught .stageAll, .clean v)
  else if !a.diffOk then
    ([.git .fetchAll, .git .stageAll, .git .diffStaged], .uncaught .diffStaged, .clean v)
  else
    let t1 : List Event :=
      [.git .fetchAll, .git .stageAll, .git .diffStaged] ++
        (if a.anyChange then [Event.git .commitAuto] else [])
    if a.anyChange && !a.commitOk then (t1, .uncaught .commitAuto, .clean v)
    else if !a.mergeOk then
      if a.abortOk then
        (t1 ++ [.git .mergeNoEdit, .git .abortMerge, .sleepSecs 1], .retry, .clean v)
      else
        (t1 ++ [.git .mergeNoEdit, .git .abortMerge], .uncaught .abortMerge, .midMerge v)
    else
      let t2 := t1 ++ [Event.git .mergeNoEdit, Event.git .updateRef]
      if !a.updateRefOk then
        (t1 ++ [.git .mergeNoEdit, .git .updateRef], .uncaught .updateRef, .clean a.mergedVal)
      else if a.pushOk then (t2 ++ [.git .push], .success, .clean a.mergedVal)
      else (t2 ++ [.git .push, .sleepSecs 1], .retry, .clean a.mergedVal)

/-- How the whole attempt loop ends: `success` via break; `exhausted`
means the loop ran out of iterations (Python for/else takes the else
branch); `uncaught` is an exception escaping the loop. -/
inductive LoopRes
  | success
  | exhausted
  | uncaught (c : GitCmd)
deriving DecidableEq

/-- The attempt loop of Repository.sync over the given attempt indices
(range(0, 5) in the source), threading the working-copy summary. -/
def syncLoop (env : Nat → AttemptEnv) : List Nat → Nat → List Event × LoopRes × Worktree
  | [], v => ([], .exhausted, .clean v)
  | i :: rest, v =>
    match runAttempt (env i) v with
    | (tr, .success, w) => (tr, .success, w)
    | (tr, .uncaught c, w) => (tr, .uncaught c, w)
    | (tr, .retry, w) =>
      let r2 := syncLoop env rest (wtVal w)
      (tr ++ r2.1, r2.2.1, r2.2.2)

/-- Repository.CONFLICT_STRING. -/
def CONFLICT_STRING : String := "CONFLICT_MUST_MANUALLY_MERGE"

/-- os.path.join for one component under an absolute directory. -/
def joinPath (d f : String) : String := d ++ "/" ++ f

/-- The SyncError message: "Could not sync '<directory>'" (single quotes
around the directory, built here without literal quote characters). -/
def syncErrorMessage (d : String) : String :=
  "Could not sync " ++ String.singleton (Char.ofNat 39) ++ d ++ String.singleton (Char.ofNat 39)

/-- Per-run facts about one Repository object and its process:
`localdir` is abs_local_directory, `cwd` the current working directory of
the process (relative paths in os.path.exists resolve against it), and
`lockWaitNeeded` how long the replica sync lock would take to become
free; `acquire(timeout=60)` succeeds only when that is at most 60. -/
structure SyncConfig where
  localdir : String
  cwd : String
  lockWaitNeeded : Nat
deriving DecidableEq

/-- How Repository.sync terminates. -/
inductive SyncOutcome
  | ok
  | lockTimeout
  | conflictFound (msg : String)
  | syncError (msg : String)
  | uncaught (c : GitCmd)
deriving DecidableEq

/-- The result of one Repository.sync call: the events issued, the
outcome, the file-system paths that exist afterwards, and the
working-copy state. -/
structure SyncResult where
  trace : List Event
  outcome : SyncOutcome
  files : List String
  worktree : Worktree
deriving DecidableEq

/-- Repository.sync (foolscrate.py lines 130-171).  Acquires the replica
lock with timeout=60; then checks `exists(self.CONFLICT_STRING)` - note
the source tests the bare class constant, a relative path resolved
against the process cwd, not self._conflict_string - and raises
ValueError if it exists; then runs the attempt loop.  If the loop
exhausts all five attempts, it creates the marker file at
self._conflict_string = join(localdir, CONFLICT_STRING) and raises
SyncError(localdir). -/
def sync (cfg : SyncConfig) (files : List String) (env : Nat → AttemptEnv) (v : Nat) :
    SyncResult :=
  if 60 < cfg.lockWaitNeeded then ⟨[], .lockTimeout, files, .clean v⟩
  else if joinPath cfg.cwd CONFLICT_STRING ∈ files then
    ⟨[], .conflictFound "Conflict found, not syncing", files, .clean v⟩
  else
    match syncLoop env (List.range 5) v with
    | (tr, .success, w) => ⟨tr, .ok, files, w⟩
    | (tr, .uncaught c, w) => ⟨tr, .uncaught c, files, w⟩
    | (tr, .exhausted, w) =>
      ⟨tr, .syncError (syncErrorMessage cfg.localdir),
        joinPath cfg.localdir CONFLICT_STRING :: files, w⟩

/-- An environment in which every primitive succeeds and there are no
local changes. -/
def allOkEnv : AttemptEnv := ⟨true, true, true, false, true, true, 0, true, true, true⟩

/-- An environment in which everything succeeds except the push. -/
def pushFailEnv : AttemptEnv := ⟨true, true, true, false, true, true, 0, true, true, false⟩

/-- An environment in which the merge fails and the abort succeeds. -/
def mergeFailEnv : AttemptEnv := ⟨true, true, true, false, true, false, 0, true, true, true⟩

/-- An environment in which the merge fails and `merge --abort` itself
also fails. -/
def abortFailEnv : AttemptEnv := ⟨true, true, true, false, true, false, 0, false, true, true⟩

/-- Decidable statement that each of the five loop iterations would end
with a caught, retryable failure (the iteration result does not depend on
the working-copy summary, see runAttempt_indep). -/
def retriesAll5 (env : Nat → AttemptEnv) : Bool :=
  (List.range 5).all fun i => decide ((runAttempt (env i) 0).2.1 = AttemptRes.retry)

/-- Repository.track (foolscrate.py lines 173-179): read the "track"
list, append this replica path, write back list(set(...)).  Python set
iteration order is arbitrary; the model fixes one de-duplication order,
and all set-level facts proved below are independent of that choice. -/
def track (cfgTrack : List String) (localdir : String) : List String :=
  (cfgTrack ++ [localdir]).dedup

/-- Failure mode of Repository.untrack: Python list.remove raises
ValueError when the element is absent (the spec calls this
NotTrackedError). -/
inductive TrackErr
  | notTracked
deriving DecidableEq

/-- Repository.untrack (foolscrate.py lines 181-184):
cfg.setdefault("track", []).remove(self.localdir); list.remove deletes
the first occurrence and raises when the path is absent. -/
def untrack (cfgTrack : List String) (localdir : String) : Except TrackErr (List String) :=
  if localdir ∈ cfgTrack then .ok (cfgTrack.erase localdir) else .error .notTracked

/-- The ConfigBroker object handed to SyncAll: it wraps the "track" list
of the durable config document.  The class body (foolscrate.py lines
36-49) defines only init, enter, exit and provide - in particular no
call protocol - so invoking the object as a function raises TypeError. -/
structure ConfigBroker where
  trackList : List String
deriving DecidableEq

/-- Whether class ConfigBroker defines a call protocol.  Its class body
contains only init, enter, exit and provide, so it does not. -/
def configBrokerClassDefinesCall : Bool := false

/-- Python dynamic errors relevant here. -/
inductive PyErr
  | typeError
deriving DecidableEq

/-- Evaluating `self._config_broker()` - calling the broker object.  In
Python this succeeds only when the object's class defines a call
protocol; class ConfigBroker does not, so the call raises TypeError. -/
def callBroker (b : ConfigBroker) : Except PyErr ConfigBroker :=
  if configBrokerClassDefinesCall then .ok b else .error .typeError

/-- SyncAll.cleanup_tracked (foolscrate.py lines 280-284):
`with self._config_broker() as cfg:` first calls the broker object; if
that call returned a context it would filter cfg["track"] to the paths
that still exist on disk (existsOnDisk) and write the result back. -/
def cleanup_tracked (b : ConfigBroker) (existsOnDisk : String → Bool) :
    Except PyErr (List String) :=
  match callBroker b with
  | .error e => .error e
  | .ok cfg => .ok (cfg.trackList.filter existsOnDisk)

/-- The per-path loop body of SyncAll.sync_all_tracked (foolscrate.py
lines 265-274): construct a Repository and sync it; `syncOk p = true`
means the construction and sync of path `p` complete without raising,
`false` means some exception is raised and caught by the
`except Exception` handler, which logs it.  Returns (synced paths,
logged-error paths) in iteration order. -/
def sweepPaths (syncOk : String → Bool) : List String → List String × List String
  | [] => ([], [])
  | p :: rest =>
    let r := sweepPaths syncOk rest
    if syncOk p then (p :: r.1, r.2) else (r.1, p :: r.2)

/-- Result of one SyncAll.sync_all_tracked call: the paths attempted (in
iteration order), those synced, those whose failure was caught and
logged, and whether the whole sweep was skipped because the fleet lock
was busy. -/
structure SweepResult where
  attempted : List String
  synced : List String
  errorsLogged : List String
  skipped : Bool
deriving DecidableEq

/-- SyncAll.sync_all_tracked (foolscrate.py lines 249-278).
`fleetLockWaitNeeded` is how long the sync_all_tracked lock would take to
become free; `lock.acquire(timeout=1)` succeeds only when that is at most
1, and on Timeout the sweep is skipped (logged, not raised).  `shuffled`
is the tracked list after random.shuffle - a permutation of the stored
"track" list.  Every path is attempted; failures are caught per path. -/
def sync_all_tracked (fleetLockWaitNeeded : Nat) (shuffled : List String)
    (syncOk : String → Bool) : SweepResult :=
  if 1 < fleetLockWaitNeeded then ⟨[], [], [], true⟩
  else
    let r := sweepPaths syncOk shuffled
    ⟨shuffled, r.1, r.2, false⟩

/-- cron_start: FOOLSCRATE_CRONTAB_COMMENT + " start\n". -/
def cronStart : List Char := "# foolscrate sync cronjob start\n".toList

/-- cron_end: FOOLSCRATE_CRONTAB_COMMENT + " end\n". -/
def cronEnd : List Char := "# foolscrate sync cronjob end\n".toList

/-- The crontab job line "*/1 * * * * LANG={} {} sync_all_tracked\n"
with the already shell-quoted locale and foolscrate executable filled
in. -/
def jobLine (loc exe : List Char) : List Char :=
  "*/1 * * * * LANG=".toList ++ loc ++ " ".toList ++ exe ++ " sync_all_tracked\n".toList

/-- The delimited block appended to the crontab. -/
def cronBlock (loc exe : List Char) : List Char :=
  cronStart ++ jobLine loc exe ++ cronEnd

/-- Whether `pat` is an initial segment of `s`. -/
def startsWith : List Char → List Char → Bool
  | [], _ => true
  | _ :: _, [] => false
  | a :: as, b :: bs => if a = b then startsWith as bs else false

/-- Index of the first position of `s` at which `pat` starts, if any. -/
def findPrefixIdx (pat : List Char) : List Char → Option Nat
  | [] => if startsWith pat [] then some 0 else none
  | c :: rest =>
    if startsWith pat (c :: rest) then some 0
    else (findPrefixIdx pat rest).map (· + 1)

/-- First position at or after `start` at which `pat` starts in `s`. -/
def findFrom (pat s : List Char) (start : Nat) : Option Nat :=
  (findPrefixIdx pat (s.drop start)).map (· + start)

/-- Leftmost match of the regex  S .*? E  (DOTALL, non-greedy) in `s`,
returned as (match start, index just past the match).  A match starting
at i requires S at i and some occurrence of E at k >= i + |S|; the
non-greedy star picks the first such k.  If the first occurrence of S has
no E after it, no later start position can have one either, so scanning
the first S occurrence alone is faithful to the leftmost-match rule. -/
def findMatchSE (S E s : List Char) : Option (Nat × Nat) :=
  match findPrefixIdx S s with
  | none => none
  | some i =>
    match findFrom E s (i + S.length) with
    | none => none
    | some k => some (i, k + E.length)

/-- re.sub of pattern  S .*? E  by "" , removing successive leftmost
non-overlapping matches; scanning resumes after each removed match.
Fuel-indexed helper (each step removes at least |E| > 0 characters). -/
def subSEAux (S E : List Char) : Nat → List Char → List Char
  | 0, s => s
  | fuel + 1, s =>
    match findMatchSE S E s with
    | none => s
    | some (i, j) => s.take i ++ subSEAux S E fuel (s.drop j)

/-- cron_pattern.sub("", s): remove every delimited block. -/
def subSE (S E s : List Char) : List Char := subSEAux S E s.length s

/-- The newline normalization of enable_foolscrate_cronjob: if the
stripped crontab is non-empty and does not end with a newline, append
one. -/
def fixNl (s : List Char) : List Char :=
  if s ≠ [] ∧ s.getLast? ≠ some (Char.ofNat 10) then s ++ [Char.ofNat 10] else s

/-- Repository.enable_foolscrate_cronjob (foolscrate.py lines 198-232),
restricted to its crontab-content transformation: read the old crontab
(empty when `crontab -l` fails), strip every previously installed
delimited block with cron_pattern.sub, normalize the trailing newline,
and append the fresh delimited block. -/
def installCron (loc exe : List Char) (oldCrontab : List Char) : List Char :=
  fixNl (subSE cronStart cronEnd oldCrontab) ++ cronBlock loc exe

end Foolscrate

deriving instance DecidableEq for Except

namespace Foolscrate

/-- The events and the loop-control result of one attempt depend only on
the primitive outcomes, not on the working-copy summary. -/
theorem runAttempt_indep (a : AttemptEnv) (v : Nat) :
    (runAttempt a v).1 = (runAttempt a 0).1 ∧ (runAttempt a v).2.1 = (runAttempt a 0).2.1 := by
  unfold runAttempt
  split_ifs <;> simp

/-- If every listed iteration would end with a caught retryable failure,
the loop runs out of iterations (Python for/else takes the else
branch). -/
theorem syncLoop_exhausted_of_retries (env : Nat → AttemptEnv) :
    ∀ (idxs : List Nat) (v : Nat),
      (∀ i ∈ idxs, (runAttempt (env i) 0).2.1 = AttemptRes.retry) →
      (syncLoop env idxs v).2.1 = LoopRes.exhausted := by
  intro idxs
  induction idxs with
  | nil => intro v _; rfl
  | cons i rest ih =>
    intro v h
    have hi : (runAttempt (env i) v).2.1 = AttemptRes.retry := by
      rw [(runAttempt_indep (env i) v).2]
      exact h i (List.mem_cons_self i rest)
    rcases hr : runAttempt (env i) v with ⟨tr, res, w⟩
    rw [hr] at hi
    simp only at hi
    subst hi
    simp only [syncLoop, hr]
    exact ih (wtVal w) fun j hj => h j (List.mem_cons_of_mem i hj)

/-- The sweep loop syncs exactly the paths whose sync does not raise and
logs exactly the others, preserving iteration order. -/
theorem sweepPaths_eq_filter (syncOk : String → Bool) :
    ∀ l : List String,
      sweepPaths syncOk l = (l.filter (fun p => syncOk p), l.filter (fun p => !(syncOk p))) := by
  intro l
  induction l with
  | nil => rfl
  | cons p rest ih => cases hp : syncOk p <;> simp [sweepPaths, ih, hp, List.filter]

/-- startsWith holds exactly when the scanned list extends the pattern. -/
theorem startsWith_iff (p : List Char) :
    ∀ s, startsWith p s = true ↔ ∃ t, s = p ++ t := by
  induction p with
  | nil => intro s; simp [startsWith]
  | cons a as ih =>
    intro s
    cases s with
    | nil => simp [startsWith]
    | cons b bs =>
      by_cases hab : a = b
      · subst hab
        simp [startsWith, ih]
      · simp only [startsWith, if_neg hab]
        constructor
        · intro h; exact absurd h (by simp)
        · rintro ⟨t, ht⟩
          injection ht with h1 _
          exact absurd h1.symm hab

/-- When findPrefixIdx finds nothing, the pattern starts at no position. -/
theorem findPrefixIdx_none_forall (pat : List Char) :
    ∀ s, findPrefixIdx pat s = none → ∀ i, startsWith pat (s.drop i) = false := by
  intro s
  induction s with
  | nil =>
    intro h i
    rw [List.drop_nil]
    cases hp : startsWith pat [] with
    | false => rfl
    | true => rw [findPrefixIdx, if_pos hp] at h; exact Option.noConfusion h
  | cons c rest ih =>
    intro h i
    cases hp : startsWith pat (c :: rest) with
    | true => rw [findPrefixIdx, if_pos hp] at h; exact Option.noConfusion h
    | false =>
      rw [findPrefixIdx, if_neg (by simp [hp])] at h
      have hrest : findPrefixIdx pat rest = none := by
        cases hfr : findPrefixIdx pat rest with
        | none => rfl
        | some k => rw [hfr] at h; exact Option.noConfusion h
      cases i with
      | zero => simpa using hp
      | succ n => simpa using ih hrest n

/-- findPrefixIdx returns the first position at which the pattern
starts. -/
theorem findPrefixIdx_some_of (pat : List Char) :
    ∀ s n, startsWith pat (s.drop n) = true →
      (∀ m, m < n → startsWith pat (s.drop m) = false) →
      findPrefixIdx pat s = some n := by
  intro s
  induction s with
  | nil =>
    intro n h1 h2
    cases n with
    | zero =>
      rw [List.drop_nil] at h1
      rw [findPrefixIdx, if_pos h1]
    | succ k =>
      exfalso
      have h0 := h2 0 (Nat.succ_pos k)
      rw [List.drop_nil] at h0 h1
      rw [h1] at h0
      exact Bool.noConfusion h0
  | cons c rest ih =>
    intro n h1 h2
    cases n with
    | zero =>
      rw [List.drop_zero] at h1
      rw [findPrefixIdx, if_pos h1]
    | succ k =>
      have h0 := h2 0 (Nat.succ_pos k)
      rw [List.drop_zero] at h0
      have ihh : findPrefixIdx pat rest = some k := by
        apply ih k (by simpa using h1)
        intro m hm
        simpa using h2 (m + 1) (Nat.succ_lt_succ hm)
      rw [findPrefixIdx, if_neg (by simp [h0]), ihh]
      rfl

/-- If the marker S occurs nowhere in R and S has no nonempty proper
border (no proper suffix of S equals the same-length initial segment of
S), then S starts at no position of R ++ (S ++ U) strictly before the
boundary: an occurrence inside R is excluded directly, and an occurrence
straddling the boundary would exhibit a border of S. -/
theorem no_match_before (S R U : List Char)
    (hb : ∀ m, 0 < m → m < S.length → S.drop m ≠ S.take (S.length - m))
    (hCov : ∀ i, startsWith S (R.drop i) = false) :
    ∀ m, m < R.length → startsWith S ((R ++ (S ++ U)).drop m) = false := by
  intro m hm
  cases hsw : startsWith S ((R ++ (S ++ U)).drop m) with
  | false => rfl
  | true =>
    exfalso
    rw [List.drop_append_eq_append_drop, Nat.sub_eq_zero_of_le (Nat.le_of_lt hm),
      List.drop_zero] at hsw
    obtain ⟨t, ht⟩ := (startsWith_iff S (R.drop m ++ (S ++ U))).mp hsw
    have hxlen : (R.drop m).length = R.length - m := by simp
    have hx0 : 0 < (R.drop m).length := by omega
    by_cases hle : S.length ≤ (R.drop m).length
    · have htake := congrArg (List.take S.length) ht
      rw [List.take_append_eq_append_take, Nat.sub_eq_zero_of_le hle, List.take_zero,
        List.append_nil, List.take_left] at htake
      have : startsWith S (R.drop m) = true := by
        apply (startsWith_iff S (R.drop m)).mpr
        refine ⟨(R.drop m).drop S.length, ?_⟩
        conv_lhs => rw [← List.take_append_drop S.length (R.drop m)]
        rw [htake]
      rw [hCov m] at this
      exact Bool.noConfusion this
    · push_neg at hle
      have htake := congrArg (List.take S.length) ht
      rw [List.take_append_eq_append_take, List.take_of_length_le (Nat.le_of_lt hle),
        List.take_append_eq_append_take,
        Nat.sub_eq_zero_of_le (by omega : S.length - (R.drop m).length ≤ S.length),
        List.take_zero, List.append_nil, List.take_left] at htake
      -- htake : R.drop m ++ S.take (S.length - (R.drop m).length) = S
      have hdropS : S.drop (R.drop m).length = S.take (S.length - (R.drop m).length) := by
        conv_lhs => rw [← htake]
        exact List.drop_left _ _
      exact hb (R.drop m).length hx0 (by omega) hdropS

/-- Substitution on the empty text is the identity (for a nonempty start
marker nothing can match). -/
theorem subSEAux_nil (S E : List Char) (hS : S ≠ []) :
    ∀ fuel, subSEAux S E fuel [] = [] := by
  intro fuel
  cases fuel with
  | zero => rfl
  | succ f =>
    have hmatch : findMatchSE S E [] = none := by
      cases S with
      | nil => exact absurd rfl hS
      | cons a as => rfl
    rw [subSEAux, hmatch]

/-- Removing the previously installed blocks from a crontab of the shape
"clean remainder R followed by one freshly appended block" gives back R,
provided the start marker S does not occur in R, S has no nonempty proper
border, and the end marker E first occurs in J ++ E at position |J| (the
job line does not contain a premature end marker). -/
theorem subSE_strip (S E R J : List Char) (hS : S ≠ [])
    (hb : ∀ m, 0 < m → m < S.length → S.drop m ≠ S.take (S.length - m))
    (hR : findPrefixIdx S R = none)
    (hJ : findPrefixIdx E (J ++ E) = some J.length) :
    subSE S E (R ++ (S ++ (J ++ E))) = R := by
  have hCov := findPrefixIdx_none_forall S R hR
  have hfind : findPrefixIdx S (R ++ (S ++ (J ++ E))) = some R.length := by
    apply findPrefixIdx_some_of
    · rw [List.drop_left]
      exact (startsWith_iff S (S ++ (J ++ E))).mpr ⟨J ++ E, rfl⟩
    · exact fun m hm => no_match_before S R (J ++ E) hb hCov m hm
  have hdrop : (R ++ (S ++ (J ++ E))).drop (R.length + S.length) = J ++ E := by
    rw [← List.drop_drop, List.drop_left]
    -- remaining : (S ++ (J ++ E)).drop S.length after reassociation
    rw [List.drop_left]
  have hfrom : findFrom E (R ++ (S ++ (J ++ E))) (R.length + S.length)
      = some (J.length + (R.length + S.length)) := by
    unfold findFrom
    rw [hdrop, hJ]
    rfl
  have hlen : (R ++ (S ++ (J ++ E))).length
      = R.length + (S.length + (J.length + E.length)) := by
    simp
  have hmatch : findMatchSE S E (R ++ (S ++ (J ++ E)))
      = some (R.length, (R ++ (S ++ (J ++ E))).length) := by
    simp only [findMatchSE, hfind, hfrom, hlen, Option.some.injEq, Prod.mk.injEq]
    exact ⟨trivial, by omega⟩
  obtain ⟨f, hf⟩ : ∃ f, (R ++ (S ++ (J ++ E))).length = f + 1 := by
    have hs0 : 0 < S.length := List.length_pos.mpr hS
    refine ⟨(R ++ (S ++ (J ++ E))).length - 1, ?_⟩
    rw [hlen]
    omega
  unfold subSE
  rw [hf]
  simp only [subSEAux, hmatch]
  rw [List.take_left, List.drop_length, subSEAux_nil S E hS, List.append_nil]

/-- The newline normalization is idempotent. -/
theorem fixNl_idem (s : List Char) : fixNl (fixNl s) = fixNl s := by
  by_cases h : s ≠ [] ∧ s.getLast? ≠ some (Char.ofNat 10)
  · have hin : fixNl s = s ++ [Char.ofNat 10] := by rw [fixNl, if_pos h]
    rw [hin, fixNl, if_neg]
    intro hcon
    exact hcon.2 (List.getLast?_concat s)
  · have hin : fixNl s = s := by rw [fixNl, if_neg h]
    rw [hin]
    exact hin

/-- C1 (the code refutes the claim): with the ConflictMarker file present
inside the replica local directory /repo but the process working
directory elsewhere (/work), sync() does not fail with the
conflict-pending error; it runs to completion and issues VCS primitives
(fetch, merge and push all appear in its trace).  The cause: sync tests
exists(self.CONFLICT_STRING), a path relative to the process cwd, while
the marker lives at join(localdir, CONFLICT_STRING). -/
theorem sync_ignores_replica_marker_c1 :
    joinPath "/repo" CONFLICT_STRING ∈ (["/repo/CONFLICT_MUST_MANUALLY_MERGE"] : List String) ∧
    (sync ⟨"/repo", "/work", 0⟩ ["/repo/CONFLICT_MUST_MANUALLY_MERGE"]
        (fun _ => allOkEnv) 0).outcome = SyncOutcome.ok ∧
    Event.git GitCmd.fetchAll ∈ (sync ⟨"/repo", "/work", 0⟩
        ["/repo/CONFLICT_MUST_MANUALLY_MERGE"] (fun _ => allOkEnv) 0).trace ∧
    Event.git GitCmd.mergeNoEdit ∈ (sync ⟨"/repo", "/work", 0⟩
        ["/repo/CONFLICT_MUST_MANUALLY_MERGE"] (fun _ => allOkEnv) 0).trace ∧
    Event.git GitCmd.push ∈ (sync ⟨"/repo", "/work", 0⟩
        ["/repo/CONFLICT_MUST_MANUALLY_MERGE"] (fun _ => allOkEnv) 0).trace := by
  decide

/-- C2: whenever the lock is obtained, the cwd-relative marker check
passes, and each of the five attempts ends with a caught retryable
failure (no successful push), sync creates the ConflictMarker file inside
the replica local directory and fails with SyncError naming the replica
path. -/
theorem sync_exhausted_marks_conflict_c2 (cfg : SyncConfig) (files : List String)
    (env : Nat → AttemptEnv) (v : Nat)
    (hlock : cfg.lockWaitNeeded ≤ 60)
    (hmark : joinPath cfg.cwd CONFLICT_STRING ∉ files)
    (hretry : retriesAll5 env = true) :
    (sync cfg files env v).outcome = SyncOutcome.syncError (syncErrorMessage cfg.localdir) ∧
    joinPath cfg.localdir CONFLICT_STRING ∈ (sync cfg files env v).files := by
  have hall : ∀ i ∈ List.range 5, (runAttempt (env i) 0).2.1 = AttemptRes.retry := by
    intro i hi
    exact of_decide_eq_true (List.all_eq_true.mp hretry i hi)
  have hex := syncLoop_exhausted_of_retries env (List.range 5) v hall
  rcases hsl : syncLoop env (List.range 5) v with ⟨tr, r, w⟩
  rw [hsl] at hex
  simp only at hex
  subst hex
  unfold sync
  rw [if_neg (by omega), if_neg hmark, hsl]
  exact ⟨rfl, List.mem_cons_self _ _⟩

/-- Witness for C2 at a concrete replica: every attempt pushes and fails,
sync ends in SyncError naming /repo and the marker path exists. -/
theorem sync_exhausted_marks_conflict_c2_witness :
    (⟨"/repo", "/repo", 0⟩ : SyncConfig).lockWaitNeeded ≤ 60 ∧
    joinPath "/repo" CONFLICT_STRING ∉ ([] : List String) ∧
    retriesAll5 (fun _ => pushFailEnv) = true ∧
    ((sync ⟨"/repo", "/repo", 0⟩ [] (fun _ => pushFailEnv) 0).outcome
        = SyncOutcome.syncError (syncErrorMessage "/repo") ∧
      joinPath "/repo" CONFLICT_STRING
        ∈ (sync ⟨"/repo", "/repo", 0⟩ [] (fun _ => pushFailEnv) 0).files) :=
  ⟨by decide, by decide, by decide,
    sync_exhausted_marks_conflict_c2 ⟨"/repo", "/repo", 0⟩ [] (fun _ => pushFailEnv) 0
      (by decide) (by decide) (by decide)⟩

/-- C3: in an attempt whose merge fails (all earlier steps succeeding and
merge --abort succeeding), the engine issues the abort right after the
merge, restoring the pre-merge working copy exactly, sleeps the fixed
1-second backoff, and the loop proceeds with the remaining attempts. -/
theorem merge_failure_aborts_and_retries_c3 (a : AttemptEnv) (v : Nat)
    (hf : a.fetchOk = true) (hs : a.stageOk = true) (hd : a.diffOk = true)
    (hc : a.anyChange = true → a.commitOk = true)
    (hm : a.mergeOk = false) (hab : a.abortOk = true) :
    (runAttempt a v).2.1 = AttemptRes.retry ∧
    (runAttempt a v).2.2 = Worktree.clean v ∧
    (runAttempt a v).1 =
      ([Event.git .fetchAll, .git .stageAll, .git .diffStaged] ++
        (if a.anyChange then [Event.git .commitAuto] else [])) ++
      [Event.git .mergeNoEdit, Event.git .abortMerge, Event.sleepSecs 1] ∧
    (∀ (env : Nat → AttemptEnv) (i : Nat) (rest : List Nat), env i = a →
      syncLoop env (i :: rest) v =
        ((runAttempt a v).1 ++ (syncLoop env rest v).1,
          (syncLoop env rest v).2.1, (syncLoop env rest v).2.2)) := by
  have hcommit : (a.anyChange && !a.commitOk) = false := by
    cases hac : a.anyChange with
    | false => simp
    | true => simp [hc hac]
  have hr : runAttempt a v =
      (([Event.git .fetchAll, .git .stageAll, .git .diffStaged] ++
          (if a.anyChange then [Event.git .commitAuto] else [])) ++
        [Event.git .mergeNoEdit, Event.git .abortMerge, Event.sleepSecs 1],
        AttemptRes.retry, Worktree.clean v) := by
    unfold runAttempt
    rw [hf, hs, hd, hm, hab]
    simp [hcommit]
  refine ⟨by rw [hr], by rw [hr], by rw [hr], ?_⟩
  intro env i rest hi
  have : runAttempt (env i) v = runAttempt a v := by rw [hi]
  simp only [syncLoop, this, hr, wtVal]

/-- Witness for C3 at a concrete merge-failing attempt. -/
theorem merge_failure_aborts_and_retries_c3_witness :
    mergeFailEnv.fetchOk = true ∧ mergeFailEnv.mergeOk = false ∧ mergeFailEnv.abortOk = true ∧
    ((runAttempt mergeFailEnv 3).2.1 = AttemptRes.retry ∧
      (runAttempt mergeFailEnv 3).2.2 = Worktree.clean 3 ∧
      syncLoop (fun _ => mergeFailEnv) (0 :: [1]) 3 =
        ((runAttempt mergeFailEnv 3).1 ++ (syncLoop (fun _ => mergeFailEnv) [1] 3).1,
          (syncLoop (fun _ => mergeFailEnv) [1] 3).2.1,
          (syncLoop (fun _ => mergeFailEnv) [1] 3).2.2)) :=
  ⟨rfl, rfl, rfl,
    (fun h => ⟨h.1, h.2.1, h.2.2.2 (fun _ => mergeFailEnv) 0 [1] rfl⟩)
      (merge_failure_aborts_and_retries_c3 mergeFailEnv 3 rfl rfl rfl (fun _ => rfl) rfl rfl)⟩

/-- C9: when a failed merge's `merge --abort` itself fails, the exception
escapes the attempt immediately (the trace ends at the abort call, with
no backoff sleep), it stops the loop with no further attempts, and sync
propagates it: the outcome is the uncaught abort failure, no
ConflictMarker is created (the file set is unchanged) and no SyncError is
raised. -/
theorem abort_failure_propagates_c9 :
    (∀ (a : AttemptEnv) (v : Nat),
      a.fetchOk = true → a.stageOk = true → a.diffOk = true →
      (a.anyChange = true → a.commitOk = true) →
      a.mergeOk = false → a.abortOk = false →
      (runAttempt a v).2.1 = AttemptRes.uncaught GitCmd.abortMerge ∧
      (runAttempt a v).1 =
        ([Event.git .fetchAll, .git .stageAll, .git .diffStaged] ++
          (if a.anyChange then [Event.git .commitAuto] else [])) ++
        [Event.git .mergeNoEdit, Event.git .abortMerge]) ∧
    (∀ (env : Nat → AttemptEnv) (i : Nat) (rest : List Nat) (v : Nat) (c : GitCmd),
      (runAttempt (env i) v).2.1 = AttemptRes.uncaught c →
      syncLoop env (i :: rest) v =
        ((runAttempt (env i) v).1, LoopRes.uncaught c, (runAttempt (env i) v).2.2)) ∧
    (∀ (cfg : SyncConfig) (files : List String) (env : Nat → AttemptEnv) (v : Nat) (c : GitCmd),
      cfg.lockWaitNeeded ≤ 60 →
      joinPath cfg.cwd CONFLICT_STRING ∉ files →
      (syncLoop env (List.range 5) v).2.1 = LoopRes.uncaught c →
      (sync cfg files env v).outcome = SyncOutcome.uncaught c ∧
      (sync cfg files env v).files = files) := by
  refine ⟨?_, ?_, ?_⟩
  · intro a v hf hs hd hc hm hab
    have hcommit : (a.anyChange && !a.commitOk) = false := by
      cases hac : a.anyChange with
      | false => simp
      | true => simp [hc hac]
    have hr : runAttempt a v =
        (([Event.git .fetchAll, .git .stageAll, .git .diffStaged] ++
            (if a.anyChange then [Event.git .commitAuto] else [])) ++
          [Event.git .mergeNoEdit, Event.git .abortMerge],
          AttemptRes.uncaught GitCmd.abortMerge, Worktree.midMerge v) := by
      unfold runAttempt
      rw [hf, hs, hd, hm, hab]
      simp [hcommit]
    exact ⟨by rw [hr], by rw [hr]⟩
  · intro env i rest v c h
    rcases hr : runAttempt (env i) v with ⟨tr, res, w⟩
    rw [hr] at h
    simp only at h
    subst h
    simp [syncLoop, hr]
  · intro cfg files env v c h1 h2 h3
    rcases hsl : syncLoop env (List.range 5) v with ⟨tr, r, w⟩
    rw [hsl] at h3
    simp only at h3
    subst h3
    unfold sync
    rw [if_neg (by omega), if_neg h2, hsl]
    exact ⟨rfl, rfl⟩

/-- Witness for C9 at a concrete abort-failing run. -/
theorem abort_failure_propagates_c9_witness :
    abortFailEnv.mergeOk = false ∧ abortFailEnv.abortOk = false ∧
    ((runAttempt abortFailEnv 5).2.1 = AttemptRes.uncaught GitCmd.abortMerge ∧
      (runAttempt abortFailEnv 5).1 =
        ([Event.git .fetchAll, .git .stageAll, .git .diffStaged] ++
          (if abortFailEnv.anyChange then [Event.git .commitAuto] else [])) ++
        [Event.git .mergeNoEdit, Event.git .abortMerge]) ∧
    syncLoop (fun _ => abortFailEnv) (0 :: [1, 2, 3, 4]) 5 =
      ((runAttempt abortFailEnv 5).1, LoopRes.uncaught GitCmd.abortMerge,
        (runAttempt abortFailEnv 5).2.2) ∧
    ((sync ⟨"/repo", "/repo", 0⟩ [] (fun _ => abortFailEnv) 0).outcome
        = SyncOutcome.uncaught GitCmd.abortMerge ∧
      (sync ⟨"/repo", "/repo", 0⟩ [] (fun _ => abortFailEnv) 0).files = []) :=
  ⟨rfl, rfl,
    (abort_failure_propagates_c9.1 abortFailEnv 5 rfl rfl rfl (fun _ => rfl) rfl rfl),
    (abort_failure_propagates_c9.2.1 (fun _ => abortFailEnv) 0 [1, 2, 3, 4] 5
      GitCmd.abortMerge (by decide)),
    (abort_failure_propagates_c9.2.2 ⟨"/repo", "/repo", 0⟩ [] (fun _ => abortFailEnv) 0
      GitCmd.abortMerge (by decide) (by decide) (by decide))⟩

/-- C10: sync acquires the replica lock (60-unit bounded wait) before the
marker check; if the lock cannot be acquired sync fails with the lock
timeout - issuing no events and touching no files - whatever markers
exist, and a conflict-pending outcome can only arise when the lock was
acquired. -/
theorem lock_acquired_before_marker_check_c10 (cfg : SyncConfig) (files : List String)
    (env : Nat → AttemptEnv) (v : Nat) :
    (60 < cfg.lockWaitNeeded →
      sync cfg files env v = ⟨[], SyncOutcome.lockTimeout, files, Worktree.clean v⟩) ∧
    (∀ m, (sync cfg files env v).outcome = SyncOutcome.conflictFound m →
      cfg.lockWaitNeeded ≤ 60) := by
  constructor
  · intro h
    unfold sync
    rw [if_pos h]
  · intro m h
    by_contra hgt
    push_neg at hgt
    unfold sync at h
    rw [if_pos hgt] at h
    exact SyncOutcome.noConfusion h

/-- Witness for C10: lock wait 61 with the marker present everywhere
still yields the lock timeout. -/
theorem lock_acquired_before_marker_check_c10_witness :
    60 < (61 : Nat) ∧
    sync ⟨"/repo", "/repo", 61⟩ [joinPath "/repo" CONFLICT_STRING] (fun _ => allOkEnv) 0
      = ⟨[], SyncOutcome.lockTimeout, [joinPath "/repo" CONFLICT_STRING], Worktree.clean 0⟩ :=
  ⟨by decide,
    (lock_acquired_before_marker_check_c10 ⟨"/repo", "/repo", 61⟩
      [joinPath "/repo" CONFLICT_STRING] (fun _ => allOkEnv) 0).1 (by decide)⟩

/-- C4: when the fleet lock is obtained, the sweep attempts every tracked
path (whatever permutation the shuffle produced), syncs exactly those
whose construction-plus-sync raises nothing, and catches and logs every
other failure without preventing any remaining path from being
attempted. -/
theorem sweep_attempts_every_path_c4 (wait : Nat) (tracked shuffled : List String)
    (syncOk : String → Bool) (hlock : wait ≤ 1) (hperm : shuffled.Perm tracked) :
    (sync_all_tracked wait shuffled syncOk).skipped = false ∧
    (sync_all_tracked wait shuffled syncOk).attempted = shuffled ∧
    (∀ p ∈ tracked, p ∈ (sync_all_tracked wait shuffled syncOk).attempted) ∧
    (sync_all_tracked wait shuffled syncOk).synced = shuffled.filter (fun p => syncOk p) ∧
    (sync_all_tracked wait shuffled syncOk).errorsLogged
      = shuffled.filter (fun p => !(syncOk p)) := by
  have hif : ¬ 1 < wait := by omega
  have hsw := sweepPaths_eq_filter syncOk shuffled
  unfold sync_all_tracked
  rw [if_neg hif]
  refine ⟨rfl, rfl, ?_, ?_, ?_⟩
  · intro p hp
    exact hperm.mem_iff.mpr hp
  · rw [hsw]
  · rw [hsw]

/-- Witness for C4: a tracked set with one valid and one vanished path;
the sweep attempts both, syncs the valid one and logs the other. -/
theorem sweep_attempts_every_path_c4_witness :
    (0 : Nat) ≤ 1 ∧
    (["/gone", "/a"] : List String).Perm ["/a", "/gone"] ∧
    ((sync_all_tracked 0 ["/gone", "/a"] (fun p => p == "/a")).skipped = false ∧
      (sync_all_tracked 0 ["/gone", "/a"] (fun p => p == "/a")).attempted = ["/gone", "/a"] ∧
      "/gone" ∈ (sync_all_tracked 0 ["/gone", "/a"] (fun p => p == "/a")).attempted ∧
      (sync_all_tracked 0 ["/gone", "/a"] (fun p => p == "/a")).synced
        = (["/gone", "/a"] : List String).filter (fun p => p == "/a") ∧
      (sync_all_tracked 0 ["/gone", "/a"] (fun p => p == "/a")).errorsLogged
        = (["/gone", "/a"] : List String).filter (fun p => !(p == "/a"))) :=
  ⟨by decide, by decide,
    (fun h => ⟨h.1, h.2.1, h.2.2.1 "/gone" (by decide), h.2.2.2.1, h.2.2.2.2⟩)
      (sweep_attempts_every_path_c4 0 ["/a", "/gone"] ["/gone", "/a"]
        (fun p => p == "/a") (by decide) (by decide))⟩

/-- C5 (the code refutes the claim): cleanup_tracked begins by calling
the broker object (`with self._config_broker() as cfg:`), but class
ConfigBroker defines no call protocol, so every invocation raises
TypeError before the registry lock is taken, before the tracked list is
read, and before anything is filtered or persisted. -/
theorem cleanup_tracked_raises_type_error_c5 :
    cleanup_tracked ⟨["/a", "/gone"]⟩ (fun p => p == "/a") = Except.error PyErr.typeError ∧
    (∀ (b : ConfigBroker) (existsOnDisk : String → Bool),
      cleanup_tracked b existsOnDisk = Except.error PyErr.typeError) :=
  ⟨rfl, fun _ _ => rfl⟩

/-- C6 counterexample: starting from the TrackedSet containing exactly
the replica path /a, track() then untrack() on /a yields the empty list,
not the original one-element list - the pair is not a no-op on a state
that already contains the path. -/
theorem track_untrack_c6_counterexample :
    untrack (track ["/a"] "/a") "/a" = Except.ok ([] : List String) ∧
    (Except.ok ([] : List String) : Except TrackErr (List String)) ≠ Except.ok ["/a"] := by
  decide

/-- C6 as amended: when the stored TrackedSet is duplicate-free and does
not already contain the path, track() followed by untrack() succeeds and
leaves a TrackedSet with exactly the members it had before either
call. -/
theorem track_untrack_restores_c6 (l : List String) (p : String)
    (h1 : l.Nodup) (h2 : p ∉ l) :
    untrack (track l p) p = Except.ok ((track l p).erase p) ∧
    ∀ q, (q ∈ (track l p).erase p ↔ q ∈ l) := by
  have htr : track l p = l ++ [p] := by
    unfold track
    apply List.dedup_eq_self.mpr
    simp [List.nodup_append, h1, h2]
  have hmem : p ∈ track l p := by
    rw [htr]
    simp
  have herase : (track l p).erase p = l := by
    rw [htr, List.erase_append_right [p] h2, List.erase_cons_head, List.append_nil]
  constructor
  · unfold untrack
    rw [if_pos hmem]
  · intro q
    rw [herase]

/-- Witness for C6 at a concrete duplicate-free state not containing the
path. -/
theorem track_untrack_restores_c6_witness :
    (["/b"] : List String).Nodup ∧ "/a" ∉ (["/b"] : List String) ∧
    untrack (track ["/b"] "/a") "/a" = Except.ok ((track ["/b"] "/a").erase "/a") ∧
    ("/b" ∈ (track ["/b"] "/a").erase "/a" ↔ "/b" ∈ (["/b"] : List String)) :=
  ⟨by decide, by decide,
    (track_untrack_restores_c6 ["/b"] "/a" (by decide) (by decide)).1,
    (track_untrack_restores_c6 ["/b"] "/a" (by decide) (by decide)).2 "/b"⟩

/-- C7: on a duplicate-free TrackedSet, untrack() removes the replica
path when it is present, and fails with the not-tracked error (Python
ValueError from list.remove) when it is absent. -/
theorem untrack_removes_or_errors_c7 (l : List String) (p : String) (h : l.Nodup) :
    (p ∈ l → untrack l p = Except.ok (l.erase p) ∧ p ∉ l.erase p) ∧
    (p ∉ l → untrack l p = Except.error TrackErr.notTracked) := by
  constructor
  · intro hp
    refine ⟨by unfold untrack; rw [if_pos hp], ?_⟩
    intro hmem
    exact ((h.mem_erase_iff).mp hmem).1 rfl
  · intro hp
    unfold untrack
    rw [if_neg hp]

/-- Witness for C7 on a concrete TrackedSet, in both the present and the
absent case. -/
theorem untrack_removes_or_errors_c7_witness :
    ((["/a", "/b"] : List String).Nodup ∧ "/a" ∈ (["/a", "/b"] : List String) ∧
      untrack ["/a", "/b"] "/a" = Except.ok ((["/a", "/b"] : List String).erase "/a") ∧
      "/a" ∉ (["/a", "/b"] : List String).erase "/a") ∧
    ("/c" ∉ (["/a", "/b"] : List String) ∧
      untrack ["/a", "/b"] "/c" = Except.error TrackErr.notTracked) :=
  ⟨⟨by decide, by decide,
      ((untrack_removes_or_errors_c7 ["/a", "/b"] "/a" (by decide)).1 (by decide)).1,
      ((untrack_removes_or_errors_c7 ["/a", "/b"] "/a" (by decide)).1 (by decide)).2⟩,
    ⟨by decide,
      (untrack_removes_or_errors_c7 ["/a", "/b"] "/c" (by decide)).2 (by decide)⟩⟩

set_option maxRecDepth 20000 in
/-- C8 counterexample: with a prior crontab consisting of a lone
start-marker line (no end marker), the first install leaves that line and
appends a block; the second install's pattern then matches from the stray
start marker through the freshly installed block's end marker and removes
both, so installing twice differs from installing once. -/
theorem cron_install_c8_counterexample :
    installCron "C.UTF-8".toList "/usr/local/bin/foolscrate".toList
        (installCron "C.UTF-8".toList "/usr/local/bin/foolscrate".toList cronStart)
      ≠ installCron "C.UTF-8".toList "/usr/local/bin/foolscrate".toList cronStart := by
  decide

/-- C8 as amended: reinstalling the cronjob replaces only the previously
installed delimited block, and installing twice yields the same crontab
as installing once, for every prior crontab content that - after the
strip of previously installed blocks and the trailing-newline
normalization - contains no occurrence of the start-marker line (and for
every job line in which the end marker does not occur prematurely).  A
prior content with a dangling start marker escapes this hypothesis and
breaks idempotence, as the counterexample shows. -/
theorem cron_install_idempotent_c8 (loc exe T : List Char)
    (hJ : findPrefixIdx cronEnd (jobLine loc exe ++ cronEnd) = some (jobLine loc exe).length)
    (hS : findPrefixIdx cronStart (fixNl (subSE cronStart cronEnd T)) = none) :
    installCron loc exe (installCron loc exe T) = installCron loc exe T := by
  have hS0 : cronStart ≠ [] := by decide
  have hb0 : ∀ m, m < cronStart.length → (0 < m →
      cronStart.drop m ≠ cronStart.take (cronStart.length - m)) := by decide
  have hb : ∀ m, 0 < m → m < cronStart.length →
      cronStart.drop m ≠ cronStart.take (cronStart.length - m) :=
    fun m h1 h2 => hb0 m h2 h1
  have hblock : cronBlock loc exe = cronStart ++ (jobLine loc exe ++ cronEnd) := by
    unfold cronBlock
    rw [List.append_assoc]
  unfold installCron
  rw [hblock, subSE_strip cronStart cronEnd (fixNl (subSE cronStart cronEnd T))
      (jobLine loc exe) hS0 hb hS hJ, fixNl_idem]

/-- Witness for C8 on a concrete unrelated crontab entry. -/
theorem cron_install_idempotent_c8_witness :
    findPrefixIdx cronEnd
        (jobLine "C.UTF-8".toList "/usr/local/bin/foolscrate".toList ++ cronEnd)
      = some (jobLine "C.UTF-8".toList "/usr/local/bin/foolscrate".toList).length ∧
    findPrefixIdx cronStart
        (fixNl (subSE cronStart cronEnd "0 0 * * * /usr/local/bin/backup\n".toList)) = none ∧
    installCron "C.UTF-8".toList "/usr/local/bin/foolscrate".toList
        (installCron "C.UTF-8".toList "/usr/local/bin/foolscrate".toList
          "0 0 * * * /usr/local/bin/backup\n".toList)
      = installCron "C.UTF-8".toList "/usr/local/bin/foolscrate".toList
          "0 0 * * * /usr/local/bin/backup\n".toList :=
  ⟨by decide, by decide,
    cron_install_idempotent_c8 "C.UTF-8".toList "/usr/local/bin/foolscrate".toList
      "0 0 * * * /usr/local/bin/backup\n".toList (by decide) (by decide)⟩

end Foolscrate
